import Mathlib

/-!
Verification of the JisuiArc2PDF per-archive page pipeline.

The definitions below are a shallow embedding of the Python source
file JisuiArc2PDF.py.  Pure helpers become Lean functions; the
conversion loops become folds over explicit page records; results of
external tool invocations (image identification, dimension lookup,
transform execution) are modelled as fields of the page records, since
the pipeline only branches on their success or failure.  Sizes and
pixel dimensions are natural numbers; the floating point ratios of the
source are modelled with exact rational arithmetic.
-/

namespace JisuiArc2PDF

/-! ## Natural sort (source: natural_sort_key, lines 52-66)

The source splits a filename on maximal digit runs, with
a regex split that keeps the delimiters and drops
empty chunks.  The net effect is a partition of the string into
maximal runs of digit and non-digit characters, which is what
splitRuns computes directly. -/

/-- Partition a character list into maximal runs of characters that
agree on Char.isDigit.  This models the filtered result of the regex
split on digit runs in the source. -/
def splitRuns : List Char → List (List Char)
  | [] => []
  | c :: cs =>
    match splitRuns cs with
    | [] => [[c]]
    | [] :: rs => [c] :: rs
    | (d :: r) :: rs =>
      if c.isDigit == d.isDigit then (c :: d :: r) :: rs
      else [c] :: (d :: r) :: rs

/-- Left-pad a digit run with zero characters to width n, modelling
the zfill call of the source. -/
def zfill (n : Nat) (t : List Char) : List Char :=
  List.replicate (n - t.length) '0' ++ t

/-- Separator characters removed from non-digit chunks by the source
regex substitution. -/
def sepChars : List Char := ['-', '_', '@', '#']

/-- Conversion of one chunk, modelling the inner convert function of
natural_sort_key: digit runs are zero-filled to ten characters,
non-digit runs are lower-cased and stripped of separator characters. -/
def convertRun (t : List Char) : List Char :=
  if t.all Char.isDigit then zfill 10 t
  else (t.map Char.toLower).filter (fun c => ¬ c ∈ sepChars)

/-- The natural sort key of a filename: the converted chunk list
(source lines 52-66).  Python compares such keys as lists of strings,
lexicographically, with strings compared by code point. -/
def natural_sort_key (s : String) : List (List Char) :=
  (splitRuns s.toList).map convertRun

/-- Strict lexicographic list comparison lifted from a strict element
comparison: a shorter list precedes any proper extension of itself,
and otherwise the first differing element decides. -/
def lexLtBy (lt : α → α → Bool) : List α → List α → Bool
  | [], [] => false
  | [], _ :: _ => true
  | _ :: _, [] => false
  | a :: as, b :: bs =>
    if lt a b then true
    else if lt b a then false
    else lexLtBy lt as bs

/-- Strict comparison of characters by code point. -/
def charLt (a b : Char) : Bool := decide (a < b)

/-- Strict lexicographic comparison of character lists by code point,
modelling Python string comparison. -/
def charListLt : List Char → List Char → Bool := lexLtBy charLt

/-- Strict lexicographic comparison of chunk lists, modelling Python
comparison of lists of strings. -/
def keyLt : List (List Char) → List (List Char) → Bool := lexLtBy charListLt

/-- The sort relation used for the page ordering: a may stay before b
whenever the key of b is not strictly below the key of a.  This is the
relation realized by a stable comparison sort on the natural key, as
performed by the list sort call of the source (line 184). -/
def naturalLe (a b : String) : Bool :=
  ! keyLt (natural_sort_key b) (natural_sort_key a)

/-- Propositional form of naturalLe. -/
def naturalLeP (a b : String) : Prop := naturalLe a b = true

instance naturalLeP.decidableRel : DecidableRel naturalLeP := fun a b =>
  inferInstanceAs (Decidable (naturalLe a b = true))

/-- Discovery ordering: a stable sort of the retained filenames by the
natural key (source line 184). -/
def sortImages (l : List String) : List String :=
  List.insertionSort naturalLeP l

/-! ## Configuration (source: argument parser, lines 612-639)

Only the settings consulted by the conversion pipeline are modelled.
Optional string settings are kept as Option String; the source tests
them with Python truthiness, under which both None and the empty
string are false, modelled by pyTruthy. -/

/-- Binding direction for spread splitting (source option -b). -/
inductive BindingDir
  | Right
  | Left
deriving DecidableEq

/-- The conversion settings consulted by process_archive. -/
structure Config where
  Deskew : Bool
  Trim : Bool
  Fuzz : String
  Quality : Nat
  SaturationThreshold : ℚ
  GrayscaleLevel : Option String
  ColorContrast : Option String
  AutoContrast : Bool
  SkipCompression : Bool
  TotalCompressionThreshold : Option ℚ
  Binding : BindingDir
deriving DecidableEq

/-- Python truthiness of an optional string setting: None and the
empty string are falsy. -/
def pyTruthy : Option String → Bool
  | none => false
  | some s => !(s == "")

/-- The stored value of an optional string setting. -/
def optVal (o : Option String) : String := o.getD ""

/-! ## Transform command construction (source lines 279-298 and 350-361)

The argument lists are modelled without the executable name and the
input and output paths, which carry no decision logic. -/

/-- The argument list of the primary per-page transform invocation
(source lines 279-298): deskew and trim if enabled, a resize step when
the target height is positive and the original height exceeds it, the
density and quality settings, then the saturation classification
section. -/
def magickCmd (cfg : Config) (targetHeight targetDpi originalHeight : Nat)
    (saturation : ℚ) : List String :=
  (if cfg.Deskew then ["-deskew", "40%"] else []) ++
  (if cfg.Trim then ["-fuzz", cfg.Fuzz, "-trim", "+repage"] else []) ++
  (if 0 < targetHeight ∧ targetHeight < originalHeight then
    ["-resize", "x" ++ toString targetHeight] else []) ++
  ["-density", toString targetDpi, "-quality", toString cfg.Quality] ++
  (if saturation < cfg.SaturationThreshold then
    ["-colorspace", "Gray"] ++
      (if pyTruthy cfg.GrayscaleLevel then ["-level", optVal cfg.GrayscaleLevel] else [])
  else if cfg.AutoContrast then ["-normalize"]
  else if pyTruthy cfg.ColorContrast then
    ["-brightness-contrast", optVal cfg.ColorContrast]
  else [])

/-- The argument list of the fallback re-encode invocation used when
the original file set is chosen (source lines 350-361).  The stored
saturation of the page is passed in unchanged by the caller. -/
def fallbackCmd (cfg : Config) (saturation : ℚ) : List String :=
  (if cfg.Deskew then ["-deskew", "40%"] else []) ++
  (if cfg.Trim then ["-fuzz", cfg.Fuzz, "-trim", "+repage"] else []) ++
  (if saturation < cfg.SaturationThreshold then
    ["-colorspace", "Gray"] ++
      (if pyTruthy cfg.GrayscaleLevel then ["-level", optVal cfg.GrayscaleLevel] else [])
  else if cfg.AutoContrast then ["-normalize"]
  else if pyTruthy cfg.ColorContrast then
    ["-brightness-contrast", optVal cfg.ColorContrast]
  else []) ++
  ["-quality", toString cfg.Quality]

/-- The deskew and trim preparation section shared by the two
invocations. -/
def prepChain (cfg : Config) : List String :=
  (if cfg.Deskew then ["-deskew", "40%"] else []) ++
  (if cfg.Trim then ["-fuzz", cfg.Fuzz, "-trim", "+repage"] else [])

/-- The saturation classification section, written following the words
of the specification: below the threshold convert to grayscale and
apply a level adjustment exactly when one is configured; at or above
the threshold apply automatic normalization if configured, otherwise
the manual brightness and contrast adjustment if configured, with
automatic normalization taking precedence. -/
def classSection (cfg : Config) (saturation : ℚ) : List String :=
  if saturation < cfg.SaturationThreshold then
    ["-colorspace", "Gray"] ++
      (if pyTruthy cfg.GrayscaleLevel then ["-level", optVal cfg.GrayscaleLevel] else [])
  else if cfg.AutoContrast then ["-normalize"]
  else if pyTruthy cfg.ColorContrast then
    ["-brightness-contrast", optVal cfg.ColorContrast]
  else []

/-- Removal of the resize step and its argument from a transform
argument list.  This states the operation named by the specification
sentence that the fallback chain is the primary chain minus the resize
step. -/
def removeResize : List String → List String
  | [] => []
  | "-resize" :: _ :: rest => removeResize rest
  | a :: rest => a :: removeResize rest

/-! ## Spread splitter (source lines 189-228)

A page is a record of the data the splitter branches on: the result of
the external dimension lookup, and whether the two crop invocations
succeed and both half files exist (modelled as one flag, since both
failure modes drop the page the same way). -/

/-- One discovered page image as seen by the splitter. -/
structure ImageFile where
  name : String
  dims : Option (Nat × Nat)
  cropOk : Bool
deriving DecidableEq

/-- A page artifact emitted by the splitter. -/
inductive PageArtifact
  | orig (p : ImageFile)
  | leftHalf (p : ImageFile)
  | rightHalf (p : ImageFile)
deriving DecidableEq

/-- Spread detection (source line 201): a page is a spread when its
width exceeds 1.2 times its height.  The comparison is written
gcd-free over integers; the spread threshold theorem proves it equal
to the rational comparison width > height * 1.2. -/
def isSpread (width height : Nat) : Bool := decide (12 * height < 10 * width)

/-- Processing of one page by the splitter (source lines 195-227): a
failed dimension lookup drops the page; a spread with successful crops
contributes its two halves ordered by the binding direction; a spread
with failed crops is dropped; a non-spread page passes through. -/
def splitPage (b : BindingDir) (p : ImageFile) : List PageArtifact :=
  match p.dims with
  | none => []
  | some (w, h) =>
    if isSpread w h then
      if p.cropOk then
        match b with
        | .Right => [.rightHalf p, .leftHalf p]
        | .Left => [.leftHalf p, .rightHalf p]
      else []
    else [.orig p]

/-- The splitter loop: pages are processed in order and their
artifacts appended to the processed list (source lines 195-228). -/
def splitPages (b : BindingDir) (l : List ImageFile) : List PageArtifact :=
  l.foldl (fun acc p => acc ++ splitPage b p) []

/-! ## Conversion pipeline (source lines 236-371 and 535-536)

A PageSpec records, for one post-split page, the outcomes of the
external calls the pipeline branches on: the height lookup, the
measured saturation, the byte sizes of the original and of the
converted output, and the success of the primary encode, of the
fallback re-encode and of the skip-compression JPEG conversion. -/

/-- One page together with the outcomes of its external calls. -/
structure PageSpec where
  name : String
  height : Option Nat
  saturation : ℚ
  origSize : Nat
  convSize : Nat
  encodeOk : Bool
  fallbackOk : Bool
  scOk : Bool
deriving DecidableEq

/-- One entry of conversion_results (source lines 305-309). -/
structure ConversionResult where
  page : PageSpec
  originalSize : Nat
  convertedSize : Nat
  saturation : ℚ
deriving DecidableEq

/-- The conversion_results record stored for a successfully encoded
page: both byte sizes and the measured saturation, kept for a later
fallback re-encode. -/
def mkResult (p : PageSpec) : ConversionResult :=
  ⟨p, p.origSize, p.convSize, p.saturation⟩

/-- Sum of the original byte sizes (source line 319). -/
def totalOriginalSize (rs : List ConversionResult) : Nat :=
  (rs.map ConversionResult.originalSize).sum

/-- Sum of the converted byte sizes (source line 320). -/
def totalConvertedSize (rs : List ConversionResult) : Nat :=
  (rs.map ConversionResult.convertedSize).sum

/-- The selection policy (source lines 326-338).  With an explicit
threshold t the source compares (converted / original) * 100 < t, and
without one it compares converted / original < 1.02; both comparisons
are written here as the equivalent gcd-free integer comparisons, and
the selection theorems prove them equal to the rational division forms
of the source. -/
def useConverted (tcr : Option ℚ) (rs : List ConversionResult) : Bool :=
  match tcr with
  | some t =>
    if 0 < totalOriginalSize rs then
      decide ((totalConvertedSize rs : ℤ) * 100 * t.den < t.num * totalOriginalSize rs)
    else false
  | none =>
    if totalOriginalSize rs = 0 then true
    else decide (100 * totalConvertedSize rs < 102 * totalOriginalSize rs)

/-- A page file handed to the document builder, tagged with how it was
produced. -/
inductive PdfFile
  | verbatim (p : PageSpec)
  | scConverted (p : PageSpec)
  | converted (p : PageSpec)
  | reencoded (p : PageSpec)
deriving DecidableEq

/-- The per-archive outcome fields recorded by the log (source lines
535-568). -/
structure Outcome where
  images : Nat
  convertedCount : Nat
  originalCount : Nat
  skippedCount : Nat
  status : String
  usedConverted : Bool
  files : List PdfFile
deriving DecidableEq

/-- The extension of a path, modelling the pathlib suffix attribute:
the part of the name from its last dot, when that dot is neither the
first nor the last character, and the empty string otherwise. -/
def pathSuffix (name : String) : String :=
  let cs := name.toList
  if '.' ∈ cs then
    let i := cs.length - 1 - cs.reverse.indexOf '.'
    if 0 < i ∧ i < cs.length - 1 then String.mk (cs.drop i) else ""
  else ""

/-- The JPEG extensions passed through verbatim in skip-compression
mode (source line 246). -/
def jpegExtensions : List String := [".jpg", ".jpeg", ".jfif", ".jpe"]

/-- Lower-casing of a string, written over the character list so that
it evaluates by kernel reduction. -/
def lowerStr (s : String) : String := String.mk (s.toList.map Char.toLower)

/-- Case-insensitive JPEG extension test (source line 251). -/
def isJpegExt (name : String) : Bool :=
  jpegExtensions.contains (lowerStr (pathSuffix name))

/-- One iteration of the skip-compression loop (source lines 250-260):
a JPEG page is included verbatim at its original path, any other page
is converted to JPEG, and a failed conversion records the page as
skipped. -/
def scStep (acc : List PdfFile × List PageSpec) (p : PageSpec) :
    List PdfFile × List PageSpec :=
  if isJpegExt p.name then (acc.1 ++ [.verbatim p], acc.2)
  else if p.scOk then (acc.1 ++ [.scConverted p], acc.2)
  else (acc.1, acc.2 ++ [p])

/-- One iteration of the conversion loop (source lines 269-312): a
failed height lookup or a failed encode records the page as skipped,
otherwise a conversion result is stored. -/
def convertStep (acc : List ConversionResult × List PageSpec) (p : PageSpec) :
    List ConversionResult × List PageSpec :=
  match p.height with
  | none => (acc.1, acc.2 ++ [p])
  | some _ =>
    if p.encodeOk then (acc.1 ++ [mkResult p], acc.2)
    else (acc.1, acc.2 ++ [p])

/-- One iteration of the fallback re-encode loop (source lines
348-367). -/
def fallbackStep (acc : List PdfFile × List PageSpec) (r : ConversionResult) :
    List PdfFile × List PageSpec :=
  if r.page.fallbackOk then (acc.1 ++ [.reencoded r.page], acc.2)
  else (acc.1, acc.2 ++ [r.page])

/-- A page survives the conversion loop exactly when its height lookup
and its encode both succeed. -/
def pageOk (p : PageSpec) : Bool := p.height.isSome && p.encodeOk

/-- The file contributed by a page in skip-compression mode, written
following the words of the claim: a JPEG page is included verbatim,
any other page is included after conversion when the conversion
succeeds. -/
def scFile (p : PageSpec) : Option PdfFile :=
  if isJpegExt p.name then some (.verbatim p)
  else if p.scOk then some (.scConverted p) else none

/-- Skip-compression pages recorded as skipped: non-JPEG pages whose
conversion failed. -/
def scFailed (p : PageSpec) : Bool := !isJpegExt p.name && !p.scOk

/-- Assembly of the per-archive outcome: an empty prepared file list
is fatal (source line 370), and the overall status is Success with
pages skipped exactly when the skipped list is non-empty (source line
536). -/
def mkOutcome (pages : List PageSpec) (files : List PdfFile) (skipped : List PageSpec)
    (convertedCount originalCount : Nat) (uc : Bool) : Except String Outcome :=
  if files.isEmpty then
    Except.error "No image files were successfully prepared for the PDF."
  else
    Except.ok
      { images := pages.length
        convertedCount := convertedCount
        originalCount := originalCount
        skippedCount := skipped.length
        status := if 0 < skipped.length then "Success with pages skipped" else "Success"
        usedConverted := uc
        files := files }

/-- The conversion stage of process_archive (source lines 230-371),
from the ordered post-split page list to the per-archive outcome: the
empty page list is fatal; skip-compression mode includes JPEG pages
verbatim and converts the rest, counting every discovered page as an
original; the normal mode encodes every page, is fatal when no page
encodes, and then either keeps the converted set or re-encodes the
originals according to the selection policy. -/
def processPages (cfg : Config) (pages : List PageSpec) : Except String Outcome :=
  if pages.isEmpty then Except.error "No image files found in the archive."
  else if cfg.SkipCompression then
    let sc := pages.foldl scStep ([], [])
    mkOutcome pages sc.1 sc.2 0 pages.length false
  else
    let conv := pages.foldl convertStep ([], [])
    if conv.1.isEmpty then Except.error "All image files failed to convert."
    else if useConverted cfg.TotalCompressionThreshold conv.1 then
      mkOutcome pages (conv.1.map (fun r => PdfFile.converted r.page)) conv.2
        conv.1.length 0 true
    else
      let fb := conv.1.foldl fallbackStep ([], [])
      mkOutcome pages fb.1 (conv.2 ++ fb.2) 0 fb.1.length false

/-! ## Concrete fixtures used by the witness theorems -/

/-- Default configuration: the argument parser defaults (quality 85,
saturation threshold 0.05, no optional adjustments, right binding, no
explicit compression threshold). -/
def cfg0 : Config :=
  { Deskew := false
    Trim := false
    Fuzz := "1%"
    Quality := 85
    SaturationThreshold := mkRat 1 20
    GrayscaleLevel := none
    ColorContrast := none
    AutoContrast := false
    SkipCompression := false
    TotalCompressionThreshold := none
    Binding := .Right }

/-- Default configuration with skip-compression enabled. -/
def cfgSC : Config := { cfg0 with SkipCompression := true }

/-- A page whose every external call succeeds: height 1000, saturation
0.5, original 1000 bytes, converted 500 bytes. -/
def goodPage : PageSpec :=
  { name := "page.png"
    height := some 1000
    saturation := mkRat 1 2
    origSize := 1000
    convSize := 500
    encodeOk := true
    fallbackOk := true
    scOk := true }

/-- A page whose primary encode fails. -/
def badPage : PageSpec := { goodPage with name := "bad.png", encodeOk := false }

/-- Ten discovered pages of which exactly the seventh fails to
encode. -/
def pages10 : List PageSpec :=
  [goodPage, goodPage, goodPage, goodPage, goodPage, goodPage,
   badPage, goodPage, goodPage, goodPage]

/-- A page with an upper-case JPEG extension. -/
def jpgA : PageSpec := { goodPage with name := "a.JPG" }

/-- A non-JPEG page whose JPEG conversion succeeds. -/
def pngB : PageSpec := { goodPage with name := "b.png" }

/-- A non-JPEG page whose JPEG conversion fails. -/
def pngBad : PageSpec := { goodPage with name := "c.png", scOk := false }

/-- A spread page: 130 by 100 pixels, crops succeeding. -/
def pgSpread : ImageFile := { name := "s1.jpg", dims := some (130, 100), cropOk := true }

/-- A square page: 100 by 100 pixels. -/
def pgSquare : ImageFile := { name := "s2.jpg", dims := some (100, 100), cropOk := true }

/-- A page whose width to height ratio is exactly 1.2. -/
def pgRatio12 : ImageFile := { name := "r12.jpg", dims := some (12, 10), cropOk := true }

/-- A page whose width to height ratio is 1.21. -/
def pgRatio121 : ImageFile := { name := "r121.jpg", dims := some (121, 100), cropOk := true }

/-- A conversion result with original total 1000000 bytes and
converted total 1015000 bytes. -/
def res1015 : ConversionResult :=
  { page := goodPage, originalSize := 1000000, convertedSize := 1015000,
    saturation := mkRat 1 2 }

/-- A conversion result with original total 1000000 bytes and
converted total 1025000 bytes. -/
def res1025 : ConversionResult :=
  { page := goodPage, originalSize := 1000000, convertedSize := 1025000,
    saturation := mkRat 1 2 }

/-- A conversion result with ratio 45 percent: original 1000 bytes,
converted 450 bytes. -/
def res450 : ConversionResult :=
  { page := goodPage, originalSize := 1000, convertedSize := 450,
    saturation := mkRat 1 2 }

deriving instance DecidableEq for Except

/-! ## Order properties of the natural sort comparison -/

theorem lexLtBy_asymm (lt : α → α → Bool)
    (hasym : ∀ x y, lt x y = true → lt y x = false) :
    ∀ a b, lexLtBy lt a b = true → lexLtBy lt b a = false := by
  intro a
  induction a with
  | nil =>
    intro b h
    cases b with
    | nil => simp [lexLtBy] at h
    | cons y ys => simp [lexLtBy]
  | cons x xs ih =>
    intro b h
    cases b with
    | nil => simp [lexLtBy] at h
    | cons y ys =>
      simp only [lexLtBy] at h ⊢
      cases hxy : lt x y with
      | true => simp [hxy, hasym x y hxy]
      | false =>
        cases hyx : lt y x with
        | true => simp [hxy, hyx] at h
        | false =>
          simp only [hxy, hyx] at h ⊢
          simp at h ⊢
          exact ih ys h

theorem lexLtBy_eq_of_not (lt : α → α → Bool)
    (heq : ∀ x y, lt x y = false → lt y x = false → x = y) :
    ∀ a b, lexLtBy lt a b = false → lexLtBy lt b a = false → a = b := by
  intro a
  induction a with
  | nil =>
    intro b h1 _
    cases b with
    | nil => rfl
    | cons y ys => simp [lexLtBy] at h1
  | cons x xs ih =>
    intro b h1 h2
    cases b with
    | nil => simp [lexLtBy] at h2
    | cons y ys =>
      simp only [lexLtBy] at h1 h2
      cases hxy : lt x y with
      | true => simp [hxy] at h1
      | false =>
        cases hyx : lt y x with
        | true => simp [hxy, hyx] at h1 h2
        | false =>
          simp only [hxy, hyx] at h1 h2
          simp at h1 h2
          rw [heq x y hxy hyx, ih ys h1 h2]

theorem lexLtBy_trans (lt : α → α → Bool)
    (htrans : ∀ x y z, lt x y = true → lt y z = true → lt x z = true)
    (heq : ∀ x y, lt x y = false → lt y x = false → x = y) :
    ∀ a b c, lexLtBy lt a b = true → lexLtBy lt b c = true → lexLtBy lt a c = true := by
  intro a
  induction a with
  | nil =>
    intro b c h1 h2
    cases b with
    | nil => simp [lexLtBy] at h1
    | cons y ys =>
      cases c with
      | nil => simp [lexLtBy] at h2
      | cons z zs => simp [lexLtBy]
  | cons x xs ih =>
    intro b c h1 h2
    cases b with
    | nil => simp [lexLtBy] at h1
    | cons y ys =>
      cases c with
      | nil => simp [lexLtBy] at h2
      | cons z zs =>
        simp only [lexLtBy] at h1 h2 ⊢
        cases hxy : lt x y with
        | true =>
          cases hyz : lt y z with
          | true => simp [htrans x y z hxy hyz]
          | false =>
            cases hzy : lt z y with
            | true => simp [hyz, hzy] at h2
            | false =>
              rw [heq y z hyz hzy] at hxy
              simp [hxy]
        | false =>
          cases hyx : lt y x with
          | true => simp [hxy, hyx] at h1
          | false =>
            have hx : x = y := heq x y hxy hyx
            subst hx
            simp only [hxy] at h1 h2 ⊢
            simp at h1
            cases hxz : lt x z with
            | true => simp
            | false =>
              cases hzx : lt z x with
              | true => simp [hxz, hzx] at h2
              | false =>
                simp only [hxz, hzx] at h2 ⊢
                simp at h2 ⊢
                exact ih ys zs h1 h2

theorem charLt_asymm (x y : Char) : charLt x y = true → charLt y x = false := by
  simp only [charLt, decide_eq_true_eq, decide_eq_false_iff_not]
  exact fun h => lt_asymm h

theorem charLt_eq_of_not (x y : Char) :
    charLt x y = false → charLt y x = false → x = y := by
  simp only [charLt, decide_eq_false_iff_not]
  exact fun h1 h2 => le_antisymm (not_lt.mp h2) (not_lt.mp h1)

theorem charLt_trans (x y z : Char) :
    charLt x y = true → charLt y z = true → charLt x z = true := by
  simp only [charLt, decide_eq_true_eq]
  exact fun h1 h2 => lt_trans h1 h2

theorem charListLt_asymm (a b : List Char) :
    charListLt a b = true → charListLt b a = false :=
  lexLtBy_asymm charLt charLt_asymm a b

theorem charListLt_eq_of_not (a b : List Char) :
    charListLt a b = false → charListLt b a = false → a = b :=
  lexLtBy_eq_of_not charLt charLt_eq_of_not a b

theorem charListLt_trans (a b c : List Char) :
    charListLt a b = true → charListLt b c = true → charListLt a c = true :=
  lexLtBy_trans charLt charLt_trans charLt_eq_of_not a b c

theorem keyLt_asymm (a b : List (List Char)) :
    keyLt a b = true → keyLt b a = false :=
  lexLtBy_asymm charListLt charListLt_asymm a b

theorem keyLt_eq_of_not (a b : List (List Char)) :
    keyLt a b = false → keyLt b a = false → a = b :=
  lexLtBy_eq_of_not charListLt charListLt_eq_of_not a b

theorem keyLt_trans (a b c : List (List Char)) :
    keyLt a b = true → keyLt b c = true → keyLt a c = true :=
  lexLtBy_trans charListLt charListLt_trans charListLt_eq_of_not a b c

theorem naturalLe_refl (a : String) : naturalLe a a = true := by
  rw [naturalLe, Bool.not_eq_true']
  cases h : keyLt (natural_sort_key a) (natural_sort_key a) with
  | false => rfl
  | true =>
    have h2 := keyLt_asymm _ _ h
    rw [h] at h2
    exact h2

instance : IsTotal String naturalLeP where
  total a b := by
    rw [naturalLeP, naturalLeP, naturalLe, naturalLe]
    cases h : keyLt (natural_sort_key b) (natural_sort_key a) with
    | false => left; rfl
    | true => right; rw [keyLt_asymm _ _ h]; rfl

instance : IsTrans String naturalLeP where
  trans a b c hab hbc := by
    rw [naturalLeP, naturalLe, Bool.not_eq_true'] at hab hbc ⊢
    cases hca : keyLt (natural_sort_key c) (natural_sort_key a) with
    | false => rfl
    | true =>
      exfalso
      cases hbc2 : keyLt (natural_sort_key b) (natural_sort_key c) with
      | true =>
        have := keyLt_trans _ _ _ hbc2 hca
        rw [hab] at this
        exact Bool.false_ne_true this
      | false =>
        rw [← keyLt_eq_of_not _ _ hbc2 hbc] at hca
        rw [hab] at hca
        exact Bool.false_ne_true hca

theorem sorted_indexOf_lt {s : List String} (hs : List.Sorted naturalLeP s)
    {a b : String} (hab : naturalLe b a = false) (ha : a ∈ s) (hb : b ∈ s) :
    s.indexOf a < s.indexOf b := by
  have hia : s.indexOf a < s.length := List.indexOf_lt_length.mpr ha
  have hib : s.indexOf b < s.length := List.indexOf_lt_length.mpr hb
  by_contra hle
  push_neg at hle
  rcases lt_or_eq_of_le hle with hlt | heq
  · have hrel := hs.rel_get_of_lt (a := ⟨s.indexOf b, hib⟩) (b := ⟨s.indexOf a, hia⟩) hlt
    rw [List.indexOf_get hib, List.indexOf_get hia] at hrel
    rw [naturalLeP, hab] at hrel
    exact Bool.false_ne_true hrel
  · have hfin : (⟨s.indexOf b, hib⟩ : Fin s.length) = ⟨s.indexOf a, hia⟩ := Fin.ext heq
    have hgb := List.indexOf_get hib
    have hga := List.indexOf_get hia
    rw [hfin] at hgb
    have hba : a = b := by rw [← hga, ← hgb]
    rw [hba, naturalLe_refl] at hab
    simp at hab

/-! ## Fold characterizations of the pipeline loops -/

theorem splitPages_foldl (b : BindingDir) :
    ∀ (l : List ImageFile) (acc : List PageArtifact),
      l.foldl (fun acc p => acc ++ splitPage b p) acc = acc ++ l.flatMap (splitPage b) := by
  intro l
  induction l with
  | nil => intro acc; simp
  | cons p ps ih =>
    intro acc
    simp only [List.foldl_cons, List.flatMap_cons]
    rw [ih, List.append_assoc]

theorem scStep_foldl :
    ∀ (pages : List PageSpec) (fs : List PdfFile) (sk : List PageSpec),
      pages.foldl scStep (fs, sk) =
        (fs ++ pages.filterMap scFile, sk ++ pages.filter scFailed) := by
  intro pages
  induction pages with
  | nil => intro fs sk; simp
  | cons p ps ih =>
    intro fs sk
    simp only [List.foldl_cons, List.filterMap_cons, List.filter_cons]
    cases hj : isJpegExt p.name with
    | true =>
      rw [show scStep (fs, sk) p = (fs ++ [.verbatim p], sk) by simp [scStep, hj]]
      rw [ih, show scFile p = some (PdfFile.verbatim p) by simp [scFile, hj]]
      simp [scFailed, hj]
    | false =>
      cases hk : p.scOk with
      | true =>
        rw [show scStep (fs, sk) p = (fs ++ [.scConverted p], sk) by simp [scStep, hj, hk]]
        rw [ih, show scFile p = some (PdfFile.scConverted p) by simp [scFile, hj, hk]]
        simp [scFailed, hj, hk]
      | false =>
        rw [show scStep (fs, sk) p = (fs, sk ++ [p]) by simp [scStep, hj, hk]]
        rw [ih, show scFile p = none by simp [scFile, hj, hk]]
        simp [scFailed, hj, hk]

theorem convertStep_foldl :
    ∀ (pages : List PageSpec) (rs : List ConversionResult) (sk : List PageSpec),
      pages.foldl convertStep (rs, sk) =
        (rs ++ (pages.filter pageOk).map mkResult,
         sk ++ pages.filter (fun p => !pageOk p)) := by
  intro pages
  induction pages with
  | nil => intro rs sk; simp
  | cons p ps ih =>
    intro rs sk
    simp only [List.foldl_cons, List.filter_cons]
    cases hh : p.height with
    | none =>
      rw [show convertStep (rs, sk) p = (rs, sk ++ [p]) by simp [convertStep, hh]]
      rw [ih]
      simp [pageOk, hh]
    | some v =>
      cases he : p.encodeOk with
      | true =>
        rw [show convertStep (rs, sk) p = (rs ++ [mkResult p], sk) by
          simp [convertStep, hh, he]]
        rw [ih]
        simp [pageOk, hh, he]
      | false =>
        rw [show convertStep (rs, sk) p = (rs, sk ++ [p]) by simp [convertStep, hh, he]]
        rw [ih]
        simp [pageOk, hh, he]

/-! ## Rational forms of the integer comparisons -/

theorem default_ratio_iff (c o : Nat) (ho : 0 < o) :
    100 * c < 102 * o ↔ (c : ℚ) / (o : ℚ) < 102 / 100 := by
  have ho' : (0 : ℚ) < (o : ℚ) := by exact_mod_cast ho
  rw [div_lt_div_iff₀ ho' (by norm_num : (0 : ℚ) < 100)]
  constructor
  · intro h
    have h2 : (100 * c : ℚ) < (102 * o : ℚ) := by exact_mod_cast h
    linarith
  · intro h
    have h2 : (100 * c : ℚ) < (102 * o : ℚ) := by linarith
    exact_mod_cast h2

theorem threshold_ratio_iff (c o : Nat) (t : ℚ) (ho : 0 < o) :
    (c : ℤ) * 100 * t.den < t.num * o ↔ ((c : ℚ) / (o : ℚ)) * 100 < t := by
  have ho' : (0 : ℚ) < (o : ℚ) := by exact_mod_cast ho
  have hd : (0 : ℚ) < (t.den : ℚ) := by exact_mod_cast t.den_pos
  have hmul : (t : ℚ) * (t.den : ℚ) = (t.num : ℚ) := by
    nth_rw 1 [← Rat.num_div_den t]
    rw [div_mul_cancel₀]
    exact ne_of_gt hd
  rw [div_mul_eq_mul_div, div_lt_iff₀ ho']
  rw [← mul_lt_mul_right hd]
  rw [show (t : ℚ) * (o : ℚ) * (t.den : ℚ) = ((t : ℚ) * (t.den : ℚ)) * (o : ℚ) by ring,
    hmul]
  constructor
  · intro h2
    exact_mod_cast h2
  · intro h2
    exact_mod_cast h2

theorem spread_ratio_iff (w h : Nat) :
    12 * h < 10 * w ↔ (h : ℚ) * (12 / 10) < (w : ℚ) := by
  rw [show (h : ℚ) * (12 / 10) = (12 * h : ℚ) / 10 by ring]
  rw [div_lt_iff₀ (by norm_num : (0 : ℚ) < 10)]
  constructor
  · intro hlt
    have h2 : (12 * h : ℚ) < (10 * w : ℚ) := by exact_mod_cast hlt
    linarith
  · intro hlt
    have h2 : (12 * h : ℚ) < (10 * w : ℚ) := by linarith
    exact_mod_cast h2

/-! ## The claims -/

/-- C1: for every non-empty list of per-page conversion results, with
no explicit compression threshold configured, the selection policy
chooses the converted page set if and only if the converted total
divided by the original total is below 1.02, and chooses the converted
set whenever the original total is zero. -/
theorem selection_default_rule (rs : List ConversionResult) (h : rs ≠ []) :
    (totalOriginalSize rs = 0 → useConverted none rs = true) ∧
    (totalOriginalSize rs ≠ 0 →
      (useConverted none rs = true ↔
        (totalConvertedSize rs : ℚ) / (totalOriginalSize rs : ℚ) < 102 / 100)) := by
  constructor
  · intro h0
    simp [useConverted, h0]
  · intro h0
    simp only [useConverted, h0, if_false]
    rw [decide_eq_true_iff]
    exact default_ratio_iff _ _ (Nat.pos_of_ne_zero h0)

/-- Witness for the default selection rule: original total 1000000
with converted total 1015000 selects the converted set, and with
converted total 1025000 selects the original set. -/
theorem selection_default_rule_witness :
    ([res1015] : List ConversionResult) ≠ [] ∧
    useConverted none [res1015] = true ∧
    useConverted none [res1025] = false := by
  refine ⟨by decide, ?_, by decide⟩
  exact ((selection_default_rule [res1015] (by decide)).2 (by decide)).mpr
    (by norm_num [totalOriginalSize, totalConvertedSize, res1015])

/-- C2: for every non-empty list of per-page conversion results with a
positive original total, an explicitly configured threshold percentage
selects the converted set if and only if one hundred times the
converted total divided by the original total is below the
threshold. -/
theorem selection_explicit_threshold (t : ℚ) (rs : List ConversionResult)
    (h : rs ≠ []) (ho : 0 < totalOriginalSize rs) :
    useConverted (some t) rs = true ↔
      100 * ((totalConvertedSize rs : ℚ) / (totalOriginalSize rs : ℚ)) < t := by
  simp only [useConverted, if_pos ho]
  rw [decide_eq_true_iff]
  rw [threshold_ratio_iff _ _ _ ho]
  constructor <;> intro h2 <;> linarith

/-- Witness for the explicit threshold rule: threshold 50 with ratio
45 percent selects the converted set. -/
theorem selection_explicit_threshold_witness :
    ([res450] : List ConversionResult) ≠ [] ∧ 0 < totalOriginalSize [res450] ∧
    useConverted (some 50) [res450] = true := by
  refine ⟨by decide, by decide, ?_⟩
  exact (selection_explicit_threshold 50 [res450] (by decide) (by decide)).mpr
    (by norm_num [totalOriginalSize, totalConvertedSize, res450])

/-- C3: discovery sorts the retained filenames by the natural key, so
the result is key-sorted, a permutation of the input, and in it
p1.jpg comes before p2.jpg, which comes before p10.jpg, whenever all
three are present. -/
theorem natural_order_discovery (l : List String)
    (h1 : "p1.jpg" ∈ l) (h2 : "p2.jpg" ∈ l) (h10 : "p10.jpg" ∈ l) :
    List.Sorted naturalLeP (sortImages l) ∧ (sortImages l).Perm l ∧
    (sortImages l).indexOf "p1.jpg" < (sortImages l).indexOf "p2.jpg" ∧
    (sortImages l).indexOf "p2.jpg" < (sortImages l).indexOf "p10.jpg" := by
  have hsort : List.Sorted naturalLeP (sortImages l) := List.sorted_insertionSort _ _
  have hperm : (sortImages l).Perm l := List.perm_insertionSort _ _
  refine ⟨hsort, hperm, ?_, ?_⟩
  · exact sorted_indexOf_lt hsort (by decide)
      (hperm.mem_iff.mpr h1) (hperm.mem_iff.mpr h2)
  · exact sorted_indexOf_lt hsort (by decide)
      (hperm.mem_iff.mpr h2) (hperm.mem_iff.mpr h10)

/-- Witness for the natural ordering at the concrete filename set of
the claim. -/
theorem natural_order_discovery_witness :
    sortImages ["p2.jpg", "p10.jpg", "p1.jpg"] = ["p1.jpg", "p2.jpg", "p10.jpg"] ∧
    (sortImages ["p2.jpg", "p10.jpg", "p1.jpg"]).indexOf "p1.jpg" <
      (sortImages ["p2.jpg", "p10.jpg", "p1.jpg"]).indexOf "p2.jpg" ∧
    (sortImages ["p2.jpg", "p10.jpg", "p1.jpg"]).indexOf "p2.jpg" <
      (sortImages ["p2.jpg", "p10.jpg", "p1.jpg"]).indexOf "p10.jpg" := by
  refine ⟨by decide, ?_, ?_⟩
  · exact (natural_order_discovery ["p2.jpg", "p10.jpg", "p1.jpg"]
      (by decide) (by decide) (by decide)).2.2.1
  · exact (natural_order_discovery ["p2.jpg", "p10.jpg", "p1.jpg"]
      (by decide) (by decide) (by decide)).2.2.2

/-- C4: a page is classified as a spread and split exactly when its
width exceeds 1.2 times its height; at or below that ratio it passes
through unsplit. -/
theorem spread_threshold (w h : Nat) (p : ImageFile) (b : BindingDir)
    (hd : p.dims = some (w, h)) (hc : p.cropOk = true) :
    (isSpread w h = true ↔ (h : ℚ) * (12 / 10) < (w : ℚ)) ∧
    (isSpread w h = true → (splitPage b p).length = 2) ∧
    (isSpread w h = false → splitPage b p = [.orig p]) := by
  refine ⟨?_, ?_, ?_⟩
  · rw [isSpread, decide_eq_true_iff]
    exact spread_ratio_iff w h
  · intro hs
    rw [splitPage.eq_def, hd]
    simp only [hs, hc, if_true]
    cases b <;> simp
  · intro hs
    rw [splitPage.eq_def, hd]
    simp [hs]

/-- Witness for the spread threshold: a 12 by 10 page, ratio exactly
1.2, is not split, while a 121 by 100 page, ratio 1.21, is split. -/
theorem spread_threshold_witness :
    isSpread 12 10 = false ∧
    splitPage BindingDir.Right pgRatio12 = [PageArtifact.orig pgRatio12] ∧
    isSpread 121 100 = true ∧
    (splitPage BindingDir.Right pgRatio121).length = 2 := by
  refine ⟨by decide, ?_, by decide, ?_⟩
  · exact (spread_threshold 12 10 pgRatio12 BindingDir.Right (by decide)
      (by decide)).2.2 (by decide)
  · exact (spread_threshold 121 100 pgRatio121 BindingDir.Right (by decide)
      (by decide)).2.1 (by decide)

/-- C5: with splitting enabled the splitter emits the order-preserving
flattening of the per-page artifact lists, where a successfully split
spread contributes its right half then its left half under right
binding, its left half then its right half under left binding, and a
non-spread page contributes exactly itself. -/
theorem splitter_binding_order (b : BindingDir) (l : List ImageFile) :
    splitPages b l = l.flatMap (splitPage b) ∧
    (∀ (p : ImageFile) (w h : Nat), p.dims = some (w, h) → isSpread w h = true →
      p.cropOk = true →
      splitPage b p = (match b with
        | .Right => [.rightHalf p, .leftHalf p]
        | .Left => [.leftHalf p, .rightHalf p])) ∧
    (∀ (p : ImageFile) (w h : Nat), p.dims = some (w, h) → isSpread w h = false →
      splitPage b p = [.orig p]) := by
  refine ⟨?_, ?_, ?_⟩
  · rw [splitPages, splitPages_foldl b l []]
    simp
  · intro p w h hd hs hc
    rw [splitPage.eq_def, hd]
    simp [hs, hc]
  · intro p w h hd hs
    rw [splitPage.eq_def, hd]
    simp [hs]

/-- Witness for the splitter order: a spread followed by a square page
under right binding yields right half, left half, then the square
page; under left binding the spread yields left half then right
half. -/
theorem splitter_binding_order_witness :
    splitPages BindingDir.Right [pgSpread, pgSquare] =
      [PageArtifact.rightHalf pgSpread, PageArtifact.leftHalf pgSpread,
       PageArtifact.orig pgSquare] ∧
    splitPage BindingDir.Right pgSpread =
      [PageArtifact.rightHalf pgSpread, PageArtifact.leftHalf pgSpread] ∧
    splitPage BindingDir.Left pgSpread =
      [PageArtifact.leftHalf pgSpread, PageArtifact.rightHalf pgSpread] := by
  refine ⟨by decide, ?_, ?_⟩
  · exact (splitter_binding_order BindingDir.Right [pgSpread, pgSquare]).2.1
      pgSpread 130 100 (by decide) (by decide) (by decide)
  · exact (splitter_binding_order BindingDir.Left [pgSpread]).2.1
      pgSpread 130 100 (by decide) (by decide) (by decide)

/-- C6 as stated fails on the code: already for the default
configuration and a color page the fallback chain differs from the
primary chain minus the resize step, because the primary chain stamps
the density and the fallback chain does not. -/
theorem fallback_chain_cex :
    fallbackCmd cfg0 (mkRat 1 2) ≠
      removeResize (magickCmd cfg0 2339 144 1000 (mkRat 1 2)) := by decide

/-- C6 amended: the fallback re-encode applies the same preparation
and the same saturation classification sections as the primary encode,
using the same stored saturation value, so the two renditions classify
every page identically; it omits the resize step and the density
stamp, and places the quality setting after the classification section
instead of before it.  The stored saturation of a conversion result is
the measured saturation of its page, unchanged. -/
theorem fallback_chain_matches_primary (cfg : Config) (th dpi oh : Nat) (sat : ℚ)
    (p : PageSpec) :
    magickCmd cfg th dpi oh sat =
      prepChain cfg ++
        (if 0 < th ∧ th < oh then ["-resize", "x" ++ toString th] else []) ++
        ["-density", toString dpi, "-quality", toString cfg.Quality] ++
        classSection cfg sat ∧
    fallbackCmd cfg sat =
      prepChain cfg ++ classSection cfg sat ++ ["-quality", toString cfg.Quality] ∧
    (mkResult p).saturation = p.saturation := by
  refine ⟨?_, ?_, rfl⟩
  · simp [magickCmd, prepChain, classSection, List.append_assoc]
  · simp [fallbackCmd, prepChain, classSection, List.append_assoc]

/-- C7: the primary encode adds a resize step, targeting exactly the
configured height, if and only if the target height is positive and
the original height strictly exceeds it; everything else in the
invocation is independent of the two heights, so a page at or below
the target height is never resized. -/
theorem resize_monotonic (cfg : Config) (dpi : Nat) (sat : ℚ) :
    ∃ pre post : List String, ∀ th oh : Nat,
      magickCmd cfg th dpi oh sat =
        pre ++ (if 0 < th ∧ th < oh then ["-resize", "x" ++ toString th] else []) ++
          post := by
  refine ⟨prepChain cfg,
    ["-density", toString dpi, "-quality", toString cfg.Quality] ++ classSection cfg sat,
    fun th oh => ?_⟩
  simp [magickCmd, prepChain, classSection, List.append_assoc]

/-- C8: the primary encode ends in the saturation classification
section and everything before it is independent of the saturation:
below the threshold the page is converted to grayscale with the level
adjustment exactly when one is configured; at or above the threshold
automatic normalization is applied if configured, otherwise the manual
brightness and contrast adjustment if configured, with automatic
normalization taking precedence. -/
theorem encoder_classification (cfg : Config) (th dpi oh : Nat) :
    ∃ pre : List String, ∀ sat : ℚ,
      magickCmd cfg th dpi oh sat =
        pre ++
          (if sat < cfg.SaturationThreshold then
            ["-colorspace", "Gray"] ++
              (if pyTruthy cfg.GrayscaleLevel then ["-level", optVal cfg.GrayscaleLevel]
               else [])
          else if cfg.AutoContrast then ["-normalize"]
          else if pyTruthy cfg.ColorContrast then
            ["-brightness-contrast", optVal cfg.ColorContrast]
          else []) := by
  refine ⟨prepChain cfg ++
    (if 0 < th ∧ th < oh then ["-resize", "x" ++ toString th] else []) ++
    ["-density", toString dpi, "-quality", toString cfg.Quality], fun sat => ?_⟩
  rw [magickCmd, prepChain]

/-- C9: a failed height lookup or a failed encode produces a skip
record for that page only, with the remaining pages processed in
order, while an archive in which every page fails to encode is fatal
to that archive. -/
theorem page_failure_isolation (cfg : Config) (pages : List PageSpec) :
    (pages.foldl convertStep ([], []) =
      ((pages.filter pageOk).map mkResult, pages.filter (fun p => !pageOk p))) ∧
    (pages ≠ [] → cfg.SkipCompression = false → (∀ p ∈ pages, pageOk p = false) →
      processPages cfg pages = Except.error "All image files failed to convert.") := by
  refine ⟨by simpa using convertStep_foldl pages [] [], ?_⟩
  intro hne hsc hall
  have hne2 : pages.isEmpty = false := by
    cases pages with
    | nil => exact absurd rfl hne
    | cons q qs => rfl
  have hfil : pages.filter pageOk = [] := by
    rw [List.filter_eq_nil_iff]
    intro p hp
    simp [hall p hp]
  simp only [processPages, hne2, hsc, Bool.false_eq_true, if_false,
    convertStep_foldl pages [] [], hfil]
  simp

/-- Witness for partial-failure isolation: ten discovered pages of
which exactly one fails to encode yield nine used pages, one skipped
page and the status Success with pages skipped, while a single failing
page is fatal. -/
theorem page_failure_isolation_witness :
    processPages cfg0 pages10 =
      Except.ok
        { images := 10, convertedCount := 9, originalCount := 0, skippedCount := 1,
          status := "Success with pages skipped", usedConverted := true,
          files := List.replicate 9 (PdfFile.converted goodPage) } ∧
    pages10 ≠ [] ∧ (∀ p ∈ [badPage], pageOk p = false) ∧
    processPages cfg0 [badPage] =
      Except.error "All image files failed to convert." := by
  refine ⟨by decide, by decide, by decide, ?_⟩
  exact (page_failure_isolation cfg0 [badPage]).2 (by decide) (by decide) (by decide)

/-- C10: with skip-compression enabled, every page with a JPEG
extension is included verbatim, every other page is included after a
JPEG conversion or recorded as skipped when that conversion fails, and
the selection policy is bypassed: the outcome never uses the converted
set, counts zero converted pages, and counts every discovered page as
an original. -/
theorem skip_compression_policy (cfg : Config) (pages : List PageSpec)
    (hsc : cfg.SkipCompression = true) :
    (pages.foldl scStep ([], []) = (pages.filterMap scFile, pages.filter scFailed)) ∧
    (∀ out : Outcome, processPages cfg pages = Except.ok out →
      out.usedConverted = false ∧ out.convertedCount = 0 ∧
      out.originalCount = pages.length) := by
  refine ⟨by simpa using scStep_foldl pages [] [], ?_⟩
  intro out hout
  cases pages with
  | nil => simp [processPages] at hout
  | cons q qs =>
    simp only [processPages, hsc, List.isEmpty_cons, Bool.false_eq_true, if_false,
      if_true, mkOutcome] at hout
    by_cases hfe : (((q :: qs).foldl scStep ([], [])).1).isEmpty = true
    · rw [if_pos hfe] at hout
      simp at hout
    · rw [if_neg hfe] at hout
      have hrec := Except.ok.inj hout
      rw [← hrec]
      exact ⟨rfl, rfl, rfl⟩

/-- Witness for the skip-compression policy: an upper-case JPEG page
is included verbatim, a convertible PNG is converted, a failing PNG is
skipped, the decision is never taken and all three discovered pages
are counted as originals. -/
theorem skip_compression_policy_witness :
    cfgSC.SkipCompression = true ∧
    [jpgA, pngB, pngBad].foldl scStep ([], []) =
      ([PdfFile.verbatim jpgA, PdfFile.scConverted pngB], [pngBad]) ∧
    processPages cfgSC [jpgA, pngB, pngBad] =
      Except.ok
        { images := 3, convertedCount := 0, originalCount := 3, skippedCount := 1,
          status := "Success with pages skipped", usedConverted := false,
          files := [PdfFile.verbatim jpgA, PdfFile.scConverted pngB] } := by
  refine ⟨rfl, ?_, by decide⟩
  have h := (skip_compression_policy cfgSC [jpgA, pngB, pngBad] rfl).1
  rw [h]
  decide

end JisuiArc2PDF
